import Mathlib

/-!
# Chat panel controllers and filter navigation

A shallow embedding of `static/js/chat.js` and `static/js/projects.js`.

* JavaScript strings are Lean strings; `trim` strips the ECMAScript white space
  and line terminator code points from both ends.
* The DOM is modelled by the data the controllers write: every created `div`
  records its `className` and whether its contents were assigned through
  `innerHTML` (markup, parsed by the browser) or through `textContent`
  (plain text, never parsed).
* An `async` submit handler is split at its suspension point: `submit` is the
  part that runs when the event is dispatched (up to the call of `fetch`),
  `resume` is the part that runs when the request settles.  Between the two the
  submission is recorded in `pending`.  Nothing changes the page between the
  settlement of `fetch` and the settlement of `response.json()`, so the two
  awaits are one settlement with an `Outcome`.
* Layout (scroll position) is outside the model.
-/

namespace JswMain

/-! ## JavaScript values -/

/-- ECMAScript WhiteSpace and LineTerminator code points: the characters that
`String.prototype.trim` strips. -/
def isJsWhitespace (c : Char) : Bool :=
  let n := c.toNat
  n = 0x09 || n = 0x0A || n = 0x0B || n = 0x0C || n = 0x0D || n = 0x20 ||
  n = 0xA0 || n = 0x1680 || (0x2000 ≤ n && n ≤ 0x200A) || n = 0x2028 ||
  n = 0x2029 || n = 0x202F || n = 0x205F || n = 0x3000 || n = 0xFEFF

/-- Strip white space from both ends of a list of characters. -/
def trimChars (cs : List Char) : List Char :=
  ((cs.dropWhile isJsWhitespace).reverse.dropWhile isJsWhitespace).reverse

/-- `String.prototype.trim`. -/
def trim (s : String) : String := ⟨trimChars s.data⟩

/-- A value produced by `JSON.parse`.  A number is carried by its JavaScript
string rendering, the only thing the controllers can observe of it. -/
inductive Json where
  | null
  | bool (b : Bool)
  | num (rendering : String)
  | str (s : String)
  | arr (items : List Json)
  | obj (fields : List (String × Json))

/-- A JavaScript value as the controllers meet it: `undefined`, or parsed JSON. -/
inductive JsValue where
  | undefined
  | json (j : Json)

/-- What a `try` block can throw. -/
inductive Thrown where
  /-- `fetch` rejected: the request failed before any response. -/
  | fetchRejected
  /-- `response.json()` rejected: the body is not JSON. -/
  | jsonRejected
  /-- TypeError: a property of `null` was read. -/
  | typeError
  /-- `new Error(message)` thrown by the handler itself. -/
  | error (message : String)
  deriving DecidableEq

/-- The member of a parsed object under `key`; the last duplicate wins, as in
`JSON.parse`. -/
def lookupField (fields : List (String × Json)) (key : String) : Option Json :=
  (fields.reverse.find? (fun kv => kv.1 = key)).map (fun kv => kv.2)

/-- Property read `data.key` for the keys the controllers read (`response`
and `error`): reading from `null` throws, an object yields its member or
`undefined`, and booleans, numbers, strings and arrays have no such property. -/
def getProperty (data : Json) (key : String) : Except Thrown JsValue :=
  match data with
  | .null => .error .typeError
  | .obj fields =>
      match lookupField fields key with
      | some v => .ok (.json v)
      | none => .ok .undefined
  | _ => .ok .undefined

mutual
/-- JavaScript `ToString` of a parsed JSON value.  For an object the conversion
looks up `toString`, then `valueOf`: a parsed object that has its own `toString`
member (never callable) hides `Object.prototype.toString`, no primitive is
obtained and a TypeError is thrown; any other parsed object renders as
`[object Object]`.  An array renders through `join`. -/
def Json.toJsString : Json → Except Thrown String
  | .null => .ok "null"
  | .bool true => .ok "true"
  | .bool false => .ok "false"
  | .num rendering => .ok rendering
  | .str s => .ok s
  | .arr items => Json.joinItems items
  | .obj fields =>
      if (lookupField fields "toString").isSome then .error .typeError
      else .ok "[object Object]"
/-- `Array.prototype.join` with the default separator: `null` items render as
the empty string, the others through `ToString`, which may throw. -/
def Json.joinItems : List Json → Except Thrown String
  | [] => .ok ""
  | [.null] => .ok ""
  | [x] => Json.toJsString x
  | .null :: xs =>
      match Json.joinItems xs with
      | .error t => .error t
      | .ok rest => .ok ("," ++ rest)
  | x :: xs =>
      match Json.toJsString x with
      | .error t => .error t
      | .ok first =>
          match Json.joinItems xs with
          | .error t => .error t
          | .ok rest => .ok (first ++ "," ++ rest)
end

/-- JavaScript truthiness of a value (the left operand of `||`). -/
def truthy : JsValue → Bool
  | .undefined => false
  | .json .null => false
  | .json (.bool b) => b
  | .json (.num rendering) => rendering ≠ "0" && rendering ≠ "NaN"
  | .json (.str s) => s ≠ ""
  | .json (.arr _) => true
  | .json (.obj _) => true

/-- `ToString` of a JavaScript value. -/
def JsValue.toJsString : JsValue → Except Thrown String
  | .undefined => .ok "undefined"
  | .json j => j.toJsString

/-- The string stored by `node.textContent = v`: the attribute is a nullable
DOMString, so `undefined` and `null` store the empty string and every other
value is converted with `ToString`, which may throw. -/
def toTextContent : JsValue → Except Thrown String
  | .undefined => .ok ""
  | .json .null => .ok ""
  | .json j => j.toJsString

/-- What `throw new Error(v || 'Failed to get response')` throws: the error
whose message is `ToString` of the truthy `v`, or the TypeError of that
conversion, or the error with the default message. -/
def thrownError (v : JsValue) : Thrown :=
  if truthy v then
    match v.toJsString with
    | .ok message => .error message
    | .error t => t
  else .error "Failed to get response"

/-! ## DOM -/

/-- How the contents of a leaf `div` were assigned. -/
inductive Fill where
  /-- `div.innerHTML = markup`: parsed as markup. -/
  | innerHTML (markup : String)
  /-- `div.textContent = text`: the node holds `text` as text; nothing is parsed. -/
  | textContent (text : String)
  deriving DecidableEq

/-- A `div` created and filled by a controller, child of a transcript entry. -/
structure Child where
  className : String
  fill : Fill
  deriving DecidableEq

/-- Contents of a transcript entry. -/
inductive Inner where
  /-- `entry.innerHTML = markup`. -/
  | innerHTML (markup : String)
  /-- Children attached with `appendChild`, in order. -/
  | children (cs : List Child)
  deriving DecidableEq

/-- A child of the `chat-messages` container. -/
structure Element where
  className : String
  inner : Inner
  deriving DecidableEq

/-- Every markup string the browser parses inside an entry. -/
def Element.markups (e : Element) : List String :=
  match e.inner with
  | .innerHTML markup => [markup]
  | .children cs => cs.filterMap (fun c =>
      match c.fill with
      | .innerHTML markup => some markup
      | .textContent _ => none)

/-- The characters of markup that lie outside tags, for markup without
character references (the templates of projects.js have none); `inTag` tells
whether the scan is inside a tag. -/
def markupTextChars : Bool → List Char → List Char
  | _, [] => []
  | false, c :: cs =>
      if c = '<' then markupTextChars true cs else c :: markupTextChars false cs
  | true, c :: cs =>
      if c = '>' then markupTextChars false cs else markupTextChars true cs

/-- The text that parsed `markup` holds: its characters outside tags. -/
def markupText (markup : String) : String := ⟨markupTextChars false markup.data⟩

/-- The plain text held by the `message-content` node of an entry built from
children. -/
def Element.content (e : Element) : Option String :=
  match e.inner with
  | .innerHTML _ => none
  | .children cs =>
      match cs.find? (fun c => c.className = "message-content") with
      | some ⟨_, .textContent text⟩ => some text
      | _ => none

/-- The entry with every plain-text payload erased: what is left is the
element structure, class names and parsed markup. -/
def Element.shape (e : Element) : Element :=
  match e.inner with
  | .innerHTML _ => e
  | .children cs =>
      { e with inner := .children (cs.map (fun c =>
          match c.fill with
          | .innerHTML _ => c
          | .textContent _ => { c with fill := .textContent "" })) }

/-- Entry rendered for a user message. -/
def Element.isUser (e : Element) : Bool := e.className = "chat-message user-message"

/-- Entry rendered for an assistant message. -/
def Element.isAssistant (e : Element) : Bool :=
  e.className = "chat-message assistant-message"

/-- Entry rendered for an error. -/
def Element.isError (e : Element) : Bool := e.className = "chat-message error-message"

/-- Typing-indicator entry of projects.js. -/
def Element.isTypingIndicator (e : Element) : Bool :=
  e.className = "chat-message assistant-message typing-indicator"

/-! ## Requests and their outcomes -/

/-- A call of `fetch`.  `body` lists the members that `JSON.stringify` writes,
in order (a member whose value is `undefined` is not written). -/
structure Request where
  url : String
  method : String
  headers : List (String × String)
  body : List (String × String)
  deriving DecidableEq

/-- Settlement of `response.json()`. -/
inductive Parsed where
  /-- The promise rejects: the body is not JSON. -/
  | rejects
  /-- The promise resolves with the parsed body. -/
  | json (data : Json)

/-- Settlement of one request. -/
inductive Outcome where
  /-- `fetch` rejects: network failure before any response. -/
  | rejected
  /-- `fetch` resolves; `ok` is `response.ok` (status in 200..299). -/
  | response (ok : Bool) (body : Parsed)

/-- The text shown to the user on every failure. -/
def fallbackText : String := "Failed to get response. Please try again."

/-- The failed settlements: a rejected request, a body that is not JSON, a
status outside 200..299. -/
def Outcome.isFailure : Outcome → Bool
  | .rejected => true
  | .response _ .rejects => true
  | .response ok (.json _) => !ok

/-! ## chat.js -/

namespace Chat

/-- Page state seen by the controller of chat.js. -/
structure State where
  /-- `chatInput.value`. -/
  chatInput : String
  /-- Children of the `chat-messages` container, in display order. -/
  chatMessages : List Element
  /-- `typingIndicator.style.display` of the single shared indicator. -/
  typingIndicator : String
  /-- Every call of `fetch` so far, in order. -/
  fetches : List Request
  /-- Submissions whose request has not settled, named by the index of their
  request in `fetches`. -/
  pending : List Nat
  /-- Arguments of `console.error`. -/
  console : List Thrown
  deriving DecidableEq

/-- The entry `messageDiv` built by `appendMessage(content, isUser)`, where
`text` is the string that `contentDiv.textContent = content` stores. -/
def messageDiv (text : String) (isUser : Bool) : Element :=
  { className := "chat-message " ++ (if isUser then "user-message" else "assistant-message")
    inner := .children [
      { className := "message-icon"
        fill := .innerHTML (if isUser then "<i class=\"fas fa-user\"></i>"
                            else "<i class=\"fas fa-robot\"></i>") },
      { className := "message-content"
        fill := .textContent text }] }

/-- `appendMessage(content, isUser)`.  The assignment to `textContent` comes
before `appendChild`: when the conversion of `content` throws, nothing is
appended. -/
def appendMessage (s : State) (content : JsValue) (isUser : Bool) : Except Thrown State :=
  match toTextContent content with
  | .error t => .error t
  | .ok text => .ok { s with chatMessages := s.chatMessages ++ [messageDiv text isUser] }

/-- The entry `errorDiv` built by `appendErrorMessage(message)`. -/
def errorDiv (message : String) : Element :=
  { className := "chat-message error-message"
    inner := .children [
      { className := "message-icon"
        fill := .innerHTML "<i class=\"fas fa-exclamation-circle\"></i>" },
      { className := "message-content"
        fill := .textContent message }] }

/-- `appendErrorMessage(message)`. -/
def appendErrorMessage (s : State) (message : String) : State :=
  { s with chatMessages := s.chatMessages ++ [errorDiv message] }

/-- `showTypingIndicator()`. -/
def showTypingIndicator (s : State) : State := { s with typingIndicator := "flex" }

/-- `hideTypingIndicator()`. -/
def hideTypingIndicator (s : State) : State := { s with typingIndicator := "none" }

/-- The request built by the submit handler: `JSON.stringify` of the object
with the single member `message`. -/
def chatRequest (message : String) : Request :=
  { url := "/api/chat"
    method := "POST"
    headers := [("Content-Type", "application/json")]
    body := [("message", message)] }

/-- The submit handler up to its first suspension (the call of `fetch`).  An
exception before the suspension would end the handler where it is thrown. -/
def submit (s : State) : State :=
  let message := trim s.chatInput
  if message = "" then s
  else
    match appendMessage s (.json (.str message)) true with
    | .error _ => s
    | .ok s =>
        let s := { s with chatInput := "" }
        let s := showTypingIndicator s
        { s with fetches := s.fetches ++ [chatRequest message]
                 pending := s.pending ++ [s.fetches.length] }

/-- The rest of the `try` block, run when the request settles: the state it
leaves and what it threw, if anything. -/
def tryBlock (s : State) : Outcome → State × Option Thrown
  | .rejected => (s, some .fetchRejected)
  | .response _ .rejects => (s, some .jsonRejected)
  | .response ok (.json data) =>
      let s := hideTypingIndicator s
      if ok then
        match getProperty data "response" with
        | .error t => (s, some t)
        | .ok v =>
            match appendMessage s v false with
            | .error t => (s, some t)
            | .ok s => (s, none)
      else
        match getProperty data "error" with
        | .error t => (s, some t)
        | .ok v => (s, some (thrownError v))

/-- The submit handler from the settlement of its request to its end: the
`try` block, then the `catch` block when something was thrown. -/
def resume (s : State) (o : Outcome) : State :=
  match tryBlock s o with
  | (s, none) => s
  | (s, some error) =>
      let s := { s with console := s.console ++ [error] }
      let s := hideTypingIndicator s
      appendErrorMessage s fallbackText

/-- The example prompts offered as chips. -/
def suggestions : List String :=
  [ "Show me recent metro projects",
    "Find infrastructure projects worth more than 500 crores",
    "What are the upcoming highway projects?",
    "Show steel requirements for recent projects",
    "Find projects starting in the next 3 months" ]

/-- The `suggestions` container appended to the transcript at start-up. -/
def suggestionsDiv : Element :=
  { className := "suggestions"
    inner := .children (suggestions.map (fun suggestion =>
      { className := "suggestion-chip", fill := .textContent suggestion })) }

/-- Click handler of the chip showing `suggestion`: set the input value, then
dispatch a `submit` event on the form, which runs the submit handler. -/
def chipClick (s : State) (suggestion : String) : State :=
  submit { s with chatInput := suggestion }

/-- What can happen on the page. -/
inductive Event where
  /-- The user edits the text field. -/
  | input (value : String)
  /-- The form is submitted. -/
  | submit
  /-- The chip at position `i` is clicked. -/
  | chip (i : Nat)
  /-- The request of submission `rid` settles. -/
  | settle (rid : Nat) (o : Outcome)

/-- One event. A settlement is handled for a pending submission only (a
promise settles once). -/
def step (s : State) : Event → State
  | .input value => { s with chatInput := value }
  | .submit => submit s
  | .chip i =>
      match suggestions.get? i with
      | some suggestion => chipClick s suggestion
      | none => s
  | .settle rid o =>
      if rid ∈ s.pending then { resume s o with pending := s.pending.erase rid }
      else s

/-- The page once the controller is set up: the entries `page` the document
came with, then the suggestion chips; nothing typed, no request issued.  The
document and its stylesheet are not part of the sources: the indicator is taken
to be hidden until `showTypingIndicator` first shows it. -/
def init (page : List Element) : State :=
  { chatInput := ""
    chatMessages := page ++ [suggestionsDiv]
    typingIndicator := "none"
    fetches := []
    pending := []
    console := [] }

/-- The state after a sequence of events. -/
def run (s : State) (events : List Event) : State := events.foldl step s

/-- The shared typing indicator is displayed. -/
def visible (s : State) : Bool := s.typingIndicator = "flex"

/-- Number of requests that have been issued and have not settled. -/
def outstanding (s : State) : Nat := s.pending.length

/-- The event issues a request when handled in `s`. -/
def issues (s : State) (e : Event) : Bool := (step s e).fetches.length ≠ s.fetches.length

/-- No submission issues a request while another request is outstanding. -/
def Serial (s : State) : List Event → Prop
  | [] => True
  | e :: es => (issues s e = true → outstanding s = 0) ∧ Serial (step s e) es

end Chat

/-! ## projects.js -/

namespace Projects

/-- A filter control: a `select` of a filter group. -/
structure Select where
  /-- `select.getAttribute('data-filter')`: `none` is the `null` returned when
  the attribute is absent. -/
  dataFilter : Option String
  /-- `select.value`. -/
  value : String

/-- The name under which `URLSearchParams.append(name, value)` stores a pair:
the argument converted to a string. -/
def paramName : Option String → String
  | some name => name
  | none => "null"

/-- Upper-case hexadecimal digit. -/
def hexDigit (n : Nat) : Char :=
  if n < 10 then Char.ofNat (48 + n) else Char.ofNat (55 + n)

/-- Serialization of one byte in `application/x-www-form-urlencoded`. -/
def urlencodeByte (b : Nat) : List Char :=
  if b = 0x20 then ['+']
  else if (0x30 ≤ b && b ≤ 0x39) || (0x41 ≤ b && b ≤ 0x5A) || (0x61 ≤ b && b ≤ 0x7A) ||
      b = 0x2A || b = 0x2D || b = 0x2E || b = 0x5F then [Char.ofNat b]
  else ['%', hexDigit (b / 16), hexDigit (b % 16)]

/-- Serialization of a name or value: its UTF-8 bytes, each one encoded. -/
def urlencode (s : String) : String :=
  ⟨(s.data.flatMap String.utf8EncodeChar).flatMap (fun b => urlencodeByte b.toNat)⟩

/-- `URLSearchParams.prototype.toString`. -/
def paramsToString (params : List (String × String)) : String :=
  "&".intercalate (params.map (fun kv => urlencode kv.1 ++ "=" ++ urlencode kv.2))

/-- The UTF-8 bytes of a string. -/
def utf8Bytes (s : String) : List Nat :=
  (s.data.flatMap String.utf8EncodeChar).map (fun b => b.toNat)

/-- Value of a hexadecimal digit. -/
def hexValue (c : Char) : Option Nat :=
  let n := c.toNat
  if 0x30 ≤ n && n ≤ 0x39 then some (n - 0x30)
  else if 0x41 ≤ n && n ≤ 0x46 then some (n - 0x41 + 10)
  else if 0x61 ≤ n && n ≤ 0x66 then some (n - 0x61 + 10)
  else none

/-- The bytes that the `application/x-www-form-urlencoded` parser reads from
an ASCII name or value: `+` is a space, `%` followed by two hexadecimal digits
is the byte they write, every other character is its own code. -/
def percentDecode : List Char → List Nat
  | [] => []
  | [c] => [if c = '+' then 0x20 else c.toNat]
  | [c, d] => [if c = '+' then 0x20 else c.toNat, if d = '+' then 0x20 else d.toNat]
  | c :: h :: l :: rest =>
      if c = '%' then
        match hexValue h, hexValue l with
        | some a, some b => (16 * a + b) :: percentDecode rest
        | _, _ => 0x25 :: percentDecode (h :: l :: rest)
      else (if c = '+' then 0x20 else c.toNat) :: percentDecode (h :: l :: rest)

/-- The `application/x-www-form-urlencoded` parser, which the server applies to
the query string, up to the bytes of each name and value: split at `&`, skip
empty pieces, split each piece at its first `=`, decode both sides. -/
def parseQuery (query : String) : List (List Nat × List Nat) :=
  ((query.data.splitOn '&').filter (fun piece => piece ≠ [])).map (fun piece =>
    (percentDecode (piece.takeWhile (fun c => c ≠ '=')),
     percentDecode ((piece.dropWhile (fun c => c ≠ '=')).drop 1)))

/-- The list of pairs held by `params` after the `forEach` of `applyFilters`. -/
def collectParams (filterSelects : List Select) : List (String × String) :=
  filterSelects.foldl (fun params select =>
    if select.value ≠ "" then params ++ [(paramName select.dataFilter, select.value)]
    else params) []

/-- `applyFilters()`: the address assigned to `window.location.href`. -/
def applyFilters (pathname : String) (filterSelects : List Select) : String :=
  let params := collectParams filterSelects
  pathname ++ "?" ++ paramsToString params

/-- A child of the `chat-messages` container with its identity: `nid` is the
serial number of the `createElement` call that made it. -/
structure Node where
  nid : Nat
  element : Element
  deriving DecidableEq

/-- Page state seen by the chat controller of projects.js. -/
structure State where
  /-- `chatForm.dataset.projectId`, read once at start-up; `none` is
  `undefined` (no `data-project-id` attribute on the form). -/
  projectId : Option String
  /-- `chatInput.value`. -/
  chatInput : String
  /-- Children of the `chat-messages` container, in display order. -/
  chatMessages : List Node
  /-- Number of transcript entries created so far. -/
  created : Nat
  /-- Every call of `fetch` so far, in order. -/
  fetches : List Request
  /-- Submissions whose request has not settled, named by the identity of the
  typing indicator they hold in `typingIndicator`. -/
  pending : List Nat
  /-- Arguments of `console.error`. -/
  console : List Thrown
  deriving DecidableEq

/-- `chatMessages.appendChild(div)` for a newly created `div`; returns the
new state and the identity of the `div`. -/
def appendChild (s : State) (div : Element) : State × Nat :=
  ({ s with chatMessages := s.chatMessages ++ [{ nid := s.created, element := div }]
            created := s.created + 1 }, s.created)

/-- The entry `messageDiv` built by `appendMessage(role, content)`, where
`text` is the string that `contentDiv.textContent = content` stores. -/
def messageDiv (role : String) (text : String) : Element :=
  { className := "chat-message " ++ role ++ "-message"
    inner := .children [
      { className := "message-icon"
        fill := .innerHTML (if role = "user" then "<i class=\"fas fa-user\"></i>"
                            else "<i class=\"fas fa-robot\"></i>") },
      { className := "message-content"
        fill := .textContent text }] }

/-- `appendMessage(role, content)`; returns the created entry.  The assignment
to `textContent` comes before `appendChild`: when the conversion of `content`
throws, nothing is appended. -/
def appendMessage (s : State) (role : String) (content : JsValue) :
    Except Thrown (State × Nat) :=
  match toTextContent content with
  | .error t => .error t
  | .ok text => .ok (appendChild s (messageDiv role text))

/-- Markup assigned to the typing indicator. -/
def typingMarkup : String :=
  "\n            <div class=\"message-icon\">\n                <i class=\"fas fa-robot\"></i>\n            </div>\n            <div class=\"message-content\">\n                <div class=\"typing-dots\">\n                    <span></span>\n                    <span></span>\n                    <span></span>\n                </div>\n            </div>\n        "

/-- The entry `indicatorDiv` built by `appendTypingIndicator()`. -/
def indicatorDiv : Element :=
  { className := "chat-message assistant-message typing-indicator"
    inner := .innerHTML typingMarkup }

/-- `appendTypingIndicator()`; returns the created entry. -/
def appendTypingIndicator (s : State) : State × Nat :=
  appendChild s indicatorDiv

/-- Markup assigned to an error entry: the template with `message` spliced in. -/
def errorMarkup (message : String) : String :=
  "\n            <div class=\"message-icon\">\n                <i class=\"fas fa-exclamation-circle\"></i>\n            </div>\n            <div class=\"message-content\">\n                " ++ message ++ "\n            </div>\n        "

/-- The entry `errorDiv` built by `appendErrorMessage(message)`. -/
def errorDiv (message : String) : Element :=
  { className := "chat-message error-message"
    inner := .innerHTML (errorMarkup message) }

/-- `appendErrorMessage(message)`; returns the created entry. -/
def appendErrorMessage (s : State) (message : String) : State × Nat :=
  appendChild s (errorDiv message)

/-- `node.remove()` for a transcript entry: detach it from the container. -/
def remove (s : State) (node : Nat) : State :=
  { s with chatMessages := s.chatMessages.filter (fun n => n.nid ≠ node) }

/-- The request built by the submit handler: `JSON.stringify` of the object
with members `project_id` and `message`; a member whose value is `undefined`
is left out. -/
def chatRequest (projectId : Option String) (message : String) : Request :=
  { url := "/api/chat"
    method := "POST"
    headers := [("Content-Type", "application/json")]
    body := (match projectId with
             | some id => [("project_id", id)]
             | none => []) ++ [("message", message)] }

/-- The submit handler up to its first suspension (the call of `fetch`).  An
exception before the suspension would end the handler where it is thrown. -/
def submit (s : State) : State :=
  let message := trim s.chatInput
  if message = "" then s
  else
    match appendMessage s "user" (.json (.str message)) with
    | .error _ => s
    | .ok (s, _) =>
        let s := { s with chatInput := "" }
        let (s, typingIndicator) := appendTypingIndicator s
        { s with fetches := s.fetches ++ [chatRequest s.projectId message]
                 pending := s.pending ++ [typingIndicator] }

/-- The rest of the `try` block, run when the request settles: the state it
leaves and what it threw, if anything. -/
def tryBlock (s : State) (typingIndicator : Nat) : Outcome → State × Option Thrown
  | .rejected => (s, some .fetchRejected)
  | .response _ .rejects => (s, some .jsonRejected)
  | .response ok (.json data) =>
      let s := remove s typingIndicator
      if ok then
        match getProperty data "response" with
        | .error t => (s, some t)
        | .ok v =>
            match appendMessage s "assistant" v with
            | .error t => (s, some t)
            | .ok (s, _) => (s, none)
      else
        match getProperty data "error" with
        | .error t => (s, some t)
        | .ok v => (s, some (thrownError v))

/-- The submit handler from the settlement of its request to its end: the
`try` block, then the `catch` block when something was thrown. -/
def resume (s : State) (typingIndicator : Nat) (o : Outcome) : State :=
  match tryBlock s typingIndicator o with
  | (s, none) => s
  | (s, some error) =>
      let s := { s with console := s.console ++ [error] }
      let s := remove s typingIndicator
      (appendErrorMessage s fallbackText).1

/-- What can happen in the chat panel. -/
inductive Event where
  /-- The user edits the text field. -/
  | input (value : String)
  /-- The form is submitted. -/
  | submit
  /-- The request of the submission holding indicator `k` settles. -/
  | settle (k : Nat) (o : Outcome)

/-- One event. A settlement is handled for a pending submission only (a
promise settles once). -/
def step (s : State) : Event → State
  | .input value => { s with chatInput := value }
  | .submit => submit s
  | .settle k o =>
      if k ∈ s.pending then { resume s k o with pending := s.pending.erase k }
      else s

/-- The panel once the controller is set up: an empty transcript, nothing
typed, no request issued. -/
def init (projectId : Option String) : State :=
  { projectId := projectId
    chatInput := ""
    chatMessages := []
    created := 0
    fetches := []
    pending := []
    console := [] }

/-- The state after a sequence of events. -/
def run (s : State) (events : List Event) : State := events.foldl step s

/-- The entries of the transcript, without their identities. -/
def transcript (s : State) : List Element := s.chatMessages.map (fun n => n.element)

/-- The transcript entries that are messages (not typing indicators). -/
def messages (s : State) : List Node :=
  s.chatMessages.filter (fun n => !n.element.isTypingIndicator)

/-- Number of typing-indicator entries in the transcript. -/
def indicators (s : State) : Nat :=
  s.chatMessages.countP (fun n => n.element.isTypingIndicator)

/-- Number of requests that have been issued and have not settled. -/
def outstanding (s : State) : Nat := s.pending.length

/-- What holds of every state the controller can reach: identities are below
the creation counter, no two entries share an identity, and the typing
indicators in the transcript are those held by the pending submissions, in
order. -/
def WellFormed (s : State) : Prop :=
  (∀ n ∈ s.chatMessages, n.nid < s.created) ∧
  (s.chatMessages.map (fun n => n.nid)).Nodup ∧
  s.chatMessages.filter (fun n => n.element.isTypingIndicator) =
    s.pending.map (fun k => { nid := k, element := indicatorDiv })

end Projects

end JswMain

/-! ## Facts about the shared definitions -/

namespace JswMain

theorem trimChars_of_all_whitespace (cs : List Char)
    (h : ∀ c ∈ cs, isJsWhitespace c = true) : trimChars cs = [] := by
  have h1 : cs.dropWhile isJsWhitespace = [] := by
    rw [List.dropWhile_eq_nil_iff]; exact h
  simp [trimChars, h1]

theorem trim_of_all_whitespace (v : String)
    (h : ∀ c ∈ v.data, isJsWhitespace c = true) : trim v = "" := by
  simp [trim, trimChars_of_all_whitespace v.data h]

theorem toTextContent_str (c : String) : toTextContent (.json (.str c)) = .ok c := by
  simp [toTextContent, Json.toJsString]

theorem chat_appendMessage_str (s : Chat.State) (c : String) (isUser : Bool) :
    Chat.appendMessage s (.json (.str c)) isUser =
      .ok { s with chatMessages := s.chatMessages ++ [Chat.messageDiv c isUser] } := by
  simp [Chat.appendMessage, toTextContent_str]

theorem projects_appendMessage_str (s : Projects.State) (role c : String) :
    Projects.appendMessage s role (.json (.str c)) =
      .ok (Projects.appendChild s (Projects.messageDiv role c)) := by
  simp [Projects.appendMessage, toTextContent_str]

theorem getProperty_response_str (r : String) :
    getProperty (.obj [("response", .str r)]) "response" = .ok (.json (.str r)) := by
  simp [getProperty, lookupField]

theorem getProperty_missing (fields : List (String × Json)) (key : String)
    (h : lookupField fields key = none) :
    getProperty (.obj fields) key = .ok .undefined := by
  simp [getProperty, h]

/-! ## Submission -/

/-- C1: in both controllers, submitting an input value `v` whose trimmed form is
not empty appends exactly one user entry holding the trimmed text (in projects.js
followed by the typing indicator, which is not a user entry), empties the input
field and issues exactly one POST to /api/chat whose body has `message` equal to
the trimmed text; the body has `project_id` exactly when the form carries a
project id in projects.js, and never in chat.js. -/
theorem submit_nonempty (v : String) (h : trim v ≠ "") :
    (∀ s : Chat.State,
      (Chat.submit { s with chatInput := v }).chatMessages =
        s.chatMessages ++ [Chat.messageDiv (trim v) true] ∧
      (Chat.messageDiv (trim v) true).isUser = true ∧
      (Chat.messageDiv (trim v) true).content = some (trim v) ∧
      (Chat.submit { s with chatInput := v }).chatInput = "" ∧
      (Chat.submit { s with chatInput := v }).fetches =
        s.fetches ++ [{ url := "/api/chat", method := "POST",
                        headers := [("Content-Type", "application/json")],
                        body := [("message", trim v)] }]) ∧
    (∀ s : Projects.State,
      Projects.transcript (Projects.submit { s with chatInput := v }) =
        Projects.transcript s ++
          [Projects.messageDiv "user" (trim v), Projects.indicatorDiv] ∧
      (Projects.messageDiv "user" (trim v)).isUser = true ∧
      (Projects.messageDiv "user" (trim v)).content = some (trim v) ∧
      Projects.indicatorDiv.isUser = false ∧
      (Projects.submit { s with chatInput := v }).chatInput = "" ∧
      (Projects.submit { s with chatInput := v }).fetches =
        s.fetches ++ [{ url := "/api/chat", method := "POST",
                        headers := [("Content-Type", "application/json")],
                        body := (match s.projectId with
                                 | some id => [("project_id", id)]
                                 | none => []) ++ [("message", trim v)] }]) := by
  constructor
  · intro s
    simp [Element.isUser, Element.content, Chat.submit, h, chat_appendMessage_str,
      Chat.showTypingIndicator, Chat.chatRequest, Chat.messageDiv]
  · intro s
    simp [Element.isUser, Element.content, Projects.submit, h, projects_appendMessage_str,
      Projects.appendTypingIndicator, Projects.appendChild, Projects.chatRequest,
      Projects.transcript, Projects.messageDiv, Projects.indicatorDiv]

/-- C1 at the input " hello " with project id "7": the request of projects.js
carries both members, the request of chat.js only the message. -/
theorem submit_nonempty_witness :
    trim " hello " = "hello" ∧
    (Projects.submit { Projects.init (some "7") with chatInput := " hello " }).fetches =
      [{ url := "/api/chat", method := "POST",
         headers := [("Content-Type", "application/json")],
         body := [("project_id", "7"), ("message", "hello")] }] ∧
    (Chat.submit { Chat.init [] with chatInput := " hello " }).fetches =
      [{ url := "/api/chat", method := "POST",
         headers := [("Content-Type", "application/json")],
         body := [("message", "hello")] }] := by
  have key := submit_nonempty " hello " (by decide)
  have hp := (key.2 (Projects.init (some "7"))).2.2.2.2.2
  have hc := (key.1 (Chat.init [])).2.2.2.2
  have ht : trim " hello " = "hello" := by decide
  rw [ht] at hp hc
  exact ⟨ht, hp, hc⟩

/-- C2: in both controllers, submitting an input value that is empty or made of
white space only changes nothing: the transcript, the input field, the typing
indicator, the list of issued requests and the pending submissions all stay as
they were. -/
theorem submit_blank (v : String) (h : ∀ c ∈ v.data, isJsWhitespace c = true) :
    (∀ s : Chat.State, Chat.submit { s with chatInput := v } = { s with chatInput := v }) ∧
    (∀ s : Projects.State,
      Projects.submit { s with chatInput := v } = { s with chatInput := v }) := by
  have ht := trim_of_all_whitespace v h
  constructor
  · intro s; simp [Chat.submit, ht]
  · intro s; simp [Projects.submit, ht]

/-- C2 at the input made of a space, a tab and a line feed. -/
theorem submit_blank_witness :
    (∀ c ∈ " \t\n".data, isJsWhitespace c = true) ∧
    Chat.submit { Chat.init [] with chatInput := " \t\n" } =
      { Chat.init [] with chatInput := " \t\n" } ∧
    Projects.submit { Projects.init none with chatInput := " \t\n" } =
      { Projects.init none with chatInput := " \t\n" } :=
  ⟨by decide, (submit_blank " \t\n" (by decide)).1 _, (submit_blank " \t\n" (by decide)).2 _⟩

/-! ## Settlement of a request -/

/-- Outcome of a failed settlement in chat.js: whatever the cause, the
indicator is hidden and the error entry with the fallback text is appended. -/
theorem chat_resume_failure (s : Chat.State) (o : Outcome) (h : o.isFailure = true) :
    (Chat.resume s o).chatMessages = s.chatMessages ++ [Chat.errorDiv fallbackText] ∧
    (Chat.resume s o).typingIndicator = "none" := by
  cases o with
  | rejected =>
      simp [Chat.resume, Chat.tryBlock, Chat.appendErrorMessage, Chat.hideTypingIndicator]
  | response ok body =>
      cases body with
      | rejects =>
          simp [Chat.resume, Chat.tryBlock, Chat.appendErrorMessage, Chat.hideTypingIndicator]
      | json data =>
          cases ok with
          | true => simp [Outcome.isFailure] at h
          | false =>
              cases hg : getProperty data "error" <;>
                simp [Chat.resume, Chat.tryBlock, hg, Chat.appendErrorMessage,
                  Chat.hideTypingIndicator]

/-- Outcome of a failed settlement in projects.js: whatever the cause, the
indicator is removed and the error entry with the fallback text is appended. -/
theorem projects_resume_failure (s : Projects.State) (k : Nat) (o : Outcome)
    (h : o.isFailure = true) :
    (Projects.resume s k o).chatMessages =
      s.chatMessages.filter (fun n => n.nid ≠ k) ++
        [{ nid := s.created, element := Projects.errorDiv fallbackText }] ∧
    (Projects.resume s k o).created = s.created + 1 := by
  cases o with
  | rejected =>
      simp [Projects.resume, Projects.tryBlock, Projects.appendErrorMessage,
        Projects.appendChild, Projects.remove]
  | response ok body =>
      cases body with
      | rejects =>
          simp [Projects.resume, Projects.tryBlock, Projects.appendErrorMessage,
            Projects.appendChild, Projects.remove]
      | json data =>
          cases ok with
          | true => simp [Outcome.isFailure] at h
          | false =>
              cases hg : getProperty data "error" <;>
                simp [Projects.resume, Projects.tryBlock, hg, Projects.appendErrorMessage,
                  Projects.appendChild, Projects.remove, List.filter_filter]

/-- Outcome of a settlement in projects.js with status 2xx and a JSON body
whose `response` property reads `v` without throwing. -/
theorem projects_resume_ok (s : Projects.State) (k : Nat) (data : Json) (v : JsValue)
    (text : String) (h : getProperty data "response" = .ok v)
    (ht : toTextContent v = .ok text) :
    (Projects.resume s k (.response true (.json data))).chatMessages =
      s.chatMessages.filter (fun n => n.nid ≠ k) ++
        [{ nid := s.created, element := Projects.messageDiv "assistant" text }] ∧
    (Projects.resume s k (.response true (.json data))).created = s.created + 1 ∧
    (Projects.resume s k (.response true (.json data))).pending = s.pending := by
  simp [Projects.resume, Projects.tryBlock, h, ht, Projects.appendMessage,
    Projects.appendChild, Projects.remove]

/-- Outcome of a settlement in chat.js with status 2xx and a JSON body whose
`response` property reads `v` without throwing. -/
theorem chat_resume_ok (s : Chat.State) (data : Json) (v : JsValue) (text : String)
    (h : getProperty data "response" = .ok v) (ht : toTextContent v = .ok text) :
    (Chat.resume s (.response true (.json data))).chatMessages =
      s.chatMessages ++ [Chat.messageDiv text false] ∧
    (Chat.resume s (.response true (.json data))).typingIndicator = "none" := by
  simp [Chat.resume, Chat.tryBlock, h, ht, Chat.appendMessage, Chat.hideTypingIndicator]

/-- C3: in both controllers, when a request settles with a 2xx status and the
JSON body `{"response": r}`, the handler appends exactly one entry, the assistant
entry whose text is `r` (not an error entry), and the typing indicator of the
submission is no longer shown: hidden in chat.js, absent from the transcript in
projects.js, where no other entry is removed. -/
theorem settle_success (r : String) :
    (∀ s : Chat.State,
      (Chat.resume s (.response true (.json (.obj [("response", .str r)])))).chatMessages =
        s.chatMessages ++ [Chat.messageDiv r false] ∧
      Chat.visible (Chat.resume s (.response true (.json (.obj [("response", .str r)])))) =
        false) ∧
    (Chat.messageDiv r false).isAssistant = true ∧
    (Chat.messageDiv r false).isError = false ∧
    (Chat.messageDiv r false).content = some r ∧
    (∀ (s : Projects.State) (k : Nat),
      (Projects.resume s k
          (.response true (.json (.obj [("response", .str r)])))).chatMessages =
        s.chatMessages.filter (fun n => n.nid ≠ k) ++
          [{ nid := s.created
             element := Projects.messageDiv "assistant" r }] ∧
      ∀ n ∈ (Projects.resume s k
          (.response true (.json (.obj [("response", .str r)])))).chatMessages,
        n.nid = k → n.element.isTypingIndicator = false) ∧
    (Projects.messageDiv "assistant" r).isAssistant = true ∧
    (Projects.messageDiv "assistant" r).isError = false ∧
    (Projects.messageDiv "assistant" r).content = some r := by
  refine ⟨?_, ?_, ?_, ?_, ?_, ?_, ?_, ?_⟩
  · intro s
    have hs := chat_resume_ok s _ _ r (getProperty_response_str r) (toTextContent_str r)
    exact ⟨hs.1, by simp [Chat.visible, hs.2]⟩
  · simp [Chat.messageDiv, Element.isAssistant]
  · simp [Chat.messageDiv, Element.isError]
  · simp [Chat.messageDiv, Element.content]
  · intro s k
    have hs := projects_resume_ok s k _ _ r (getProperty_response_str r) (toTextContent_str r)
    refine ⟨hs.1, ?_⟩
    intro n hn hk
    rw [hs.1] at hn
    simp at hn
    rcases hn with hn | hn
    · exact absurd hk hn.2
    · subst hn
      simp [Projects.messageDiv, Element.isTypingIndicator]
  · simp [Projects.messageDiv, Element.isAssistant]
  · simp [Projects.messageDiv, Element.isError]
  · simp [Projects.messageDiv, Element.content]

/-- C4: in both controllers, every failed settlement (a non-2xx status with any
JSON body, a body that is not JSON, a rejected request) appends exactly one
entry, the error entry holding the fixed fallback text, which is not an
assistant entry, and leaves the typing indicator of the submission not shown;
the resulting transcript is the same for every cause of failure.  In chat.js
the content node holds the fixed text as text; in projects.js the entry is the
markup of the template around the fixed text, and the text of that markup,
trimmed, is the fixed text. -/
theorem settle_failure (o : Outcome) (h : o.isFailure = true) :
    fallbackText = "Failed to get response. Please try again." ∧
    (∀ s : Chat.State,
      (Chat.resume s o).chatMessages = s.chatMessages ++ [Chat.errorDiv fallbackText] ∧
      Chat.visible (Chat.resume s o) = false) ∧
    (Chat.errorDiv fallbackText).isError = true ∧
    (Chat.errorDiv fallbackText).isAssistant = false ∧
    (Chat.errorDiv fallbackText).content = some fallbackText ∧
    (∀ (s : Projects.State) (k : Nat),
      (Projects.resume s k o).chatMessages =
        s.chatMessages.filter (fun n => n.nid ≠ k) ++
          [{ nid := s.created, element := Projects.errorDiv fallbackText }] ∧
      ∀ n ∈ (Projects.resume s k o).chatMessages,
        n.nid = k → n.element.isTypingIndicator = false) ∧
    (Projects.errorDiv fallbackText).isError = true ∧
    (Projects.errorDiv fallbackText).isAssistant = false ∧
    (Projects.errorDiv fallbackText).markups =
      ["\n            <div class=\"message-icon\">\n                <i class=\"fas fa-exclamation-circle\"></i>\n            </div>\n            <div class=\"message-content\">\n                Failed to get response. Please try again.\n            </div>\n        "] ∧
    (Projects.errorDiv fallbackText).markups.map (fun markup => trim (markupText markup)) =
      ["Failed to get response. Please try again."] := by
  refine ⟨rfl, ?_, ?_, ?_, ?_, ?_, ?_, ?_, ?_, ?_⟩
  · intro s
    have hs := chat_resume_failure s o h
    exact ⟨hs.1, by simp [Chat.visible, hs.2]⟩
  · simp [Chat.errorDiv, Element.isError]
  · simp [Chat.errorDiv, Element.isAssistant]
  · simp [Chat.errorDiv, Element.content]
  · intro s k
    have hs := projects_resume_failure s k o h
    refine ⟨hs.1, ?_⟩
    intro n hn hk
    rw [hs.1] at hn
    simp at hn
    rcases hn with hn | hn
    · exact absurd hk hn.2
    · subst hn
      simp [Projects.errorDiv, Element.isTypingIndicator]
  · simp [Projects.errorDiv, Element.isError]
  · simp [Projects.errorDiv, Element.isAssistant]
  · rfl
  · decide

/-- C4 at status 500 with body `{"error": "boom"}`, settling the first
submission of each controller: the server's text "boom" is nowhere in the
transcript. -/
theorem settle_failure_witness :
    (Chat.resume (Chat.run (Chat.init []) [.input "hello", .submit])
        (.response false (.json (.obj [("error", .str "boom")])))).chatMessages =
      [Chat.suggestionsDiv, Chat.messageDiv "hello" true,
        Chat.errorDiv "Failed to get response. Please try again."] ∧
    Projects.transcript
        (Projects.resume (Projects.run (Projects.init none) [.input "hello", .submit]) 1
          (.response false (.json (.obj [("error", .str "boom")])))) =
      [Projects.messageDiv "user" "hello",
        { className := "chat-message error-message"
          inner := .innerHTML
            "\n            <div class=\"message-icon\">\n                <i class=\"fas fa-exclamation-circle\"></i>\n            </div>\n            <div class=\"message-content\">\n                Failed to get response. Please try again.\n            </div>\n        " }] := by
  have key := settle_failure (.response false (.json (.obj [("error", .str "boom")]))) rfl
  constructor
  · rw [(key.2.1 _).1]; decide
  · rw [Projects.transcript, (key.2.2.2.2.2.1 _ _).1]; rfl

/-- A 2xx body whose `response` member cannot be converted to a string (an
object with its own `toString` member): the assignment to `textContent` throws
before anything is appended, and the `catch` block appends the error entry. -/
theorem settle_unprintable_response :
    (Chat.resume (Chat.init [])
        (.response true (.json (.obj
          [("response", .obj [("toString", .num "1")])])))).chatMessages =
      [Chat.suggestionsDiv, Chat.errorDiv fallbackText] ∧
    Projects.transcript
        (Projects.resume (Projects.run (Projects.init none) [.input "hello", .submit]) 1
          (.response true (.json (.obj
            [("response", .obj [("toString", .num "1")])])))) =
      [Projects.messageDiv "user" "hello", Projects.errorDiv fallbackText] := by
  constructor <;> rfl

/-- C5, as stated, fails: settling the first submission with status 200 and the
JSON object `{"answer": "42"}`, which has no `response` field, appends an
assistant entry with empty text in both controllers, and no error entry. -/
theorem missing_response_field_counterexample :
    (Chat.run (Chat.init [])
        [.input "hello", .submit,
         .settle 0 (.response true (.json (.obj [("answer", .str "42")])))]).chatMessages =
      [Chat.suggestionsDiv, Chat.messageDiv "hello" true,
        Chat.messageDiv "" false] ∧
    (Chat.messageDiv "" false).isAssistant = true ∧
    (Chat.messageDiv "" false).isError = false ∧
    Chat.suggestionsDiv.isError = false ∧
    (Chat.messageDiv "hello" true).isError = false ∧
    Projects.transcript
        (Projects.run (Projects.init none)
          [.input "hello", .submit,
           .settle 1 (.response true (.json (.obj [("answer", .str "42")])))]) =
      [Projects.messageDiv "user" "hello",
        Projects.messageDiv "assistant" ""] ∧
    (Projects.messageDiv "assistant" "").isAssistant = true ∧
    (Projects.messageDiv "assistant" "").isError = false ∧
    (Projects.messageDiv "user" "hello").isError = false := by
  refine ⟨?_, ?_, ?_, ?_, ?_, ?_, ?_, ?_, ?_⟩ <;> rfl

/-- C5, amended: in both controllers a body that is not JSON is a failure
whatever the status (one error entry with the fallback text is appended); a 2xx
response whose body is a JSON object with no `response` field is not: the handler
appends exactly one entry, an assistant entry whose text is empty, and no error
entry, and the typing indicator is no longer shown. -/
theorem settle_malformed (fields : List (String × Json))
    (h : lookupField fields "response" = none) :
    (∀ s : Chat.State,
      (Chat.resume s (.response true (.json (.obj fields)))).chatMessages =
        s.chatMessages ++ [Chat.messageDiv "" false] ∧
      Chat.visible (Chat.resume s (.response true (.json (.obj fields)))) = false) ∧
    (Chat.messageDiv "" false).isAssistant = true ∧
    (Chat.messageDiv "" false).isError = false ∧
    (Chat.messageDiv "" false).content = some "" ∧
    (∀ (s : Projects.State) (k : Nat),
      (Projects.resume s k (.response true (.json (.obj fields)))).chatMessages =
        s.chatMessages.filter (fun n => n.nid ≠ k) ++
          [{ nid := s.created, element := Projects.messageDiv "assistant" "" }]) ∧
    (Projects.messageDiv "assistant" "").isAssistant = true ∧
    (Projects.messageDiv "assistant" "").isError = false ∧
    (Projects.messageDiv "assistant" "").content = some "" ∧
    (∀ (ok : Bool) (s : Chat.State),
      (Chat.resume s (.response ok .rejects)).chatMessages =
        s.chatMessages ++ [Chat.errorDiv fallbackText]) ∧
    (∀ (ok : Bool) (s : Projects.State) (k : Nat),
      (Projects.resume s k (.response ok .rejects)).chatMessages =
        s.chatMessages.filter (fun n => n.nid ≠ k) ++
          [{ nid := s.created, element := Projects.errorDiv fallbackText }]) := by
  refine ⟨?_, ?_, ?_, ?_, ?_, ?_, ?_, ?_, ?_, ?_⟩
  · intro s
    have hs := chat_resume_ok s _ _ "" (getProperty_missing fields "response" h) rfl
    exact ⟨hs.1, by simp [Chat.visible, hs.2]⟩
  · rfl
  · rfl
  · rfl
  · intro s k
    exact (projects_resume_ok s k _ _ "" (getProperty_missing fields "response" h) rfl).1
  · rfl
  · rfl
  · rfl
  · intro ok s
    exact (chat_resume_failure s (.response ok .rejects) rfl).1
  · intro ok s k
    exact (projects_resume_failure s k (.response ok .rejects) rfl).1

/-- The amended C5 at the body `{"answer": "42"}` with status 2xx. -/
theorem settle_malformed_witness :
    lookupField [("answer", Json.str "42")] "response" = none ∧
    (Chat.resume (Chat.init [])
        (.response true (.json (.obj [("answer", .str "42")])))).chatMessages =
      [Chat.suggestionsDiv, Chat.messageDiv "" false] :=
  ⟨rfl, ((settle_malformed [("answer", .str "42")] rfl).1 (Chat.init [])).1⟩

/-! ## Rendering -/

/-- C6: in both controllers, for every string `c`, rendering a message with
content `c` appends one entry whose `message-content` node holds exactly `c` as
text; the only markup parsed in the entry is the icon markup, fixed by the role;
and the entry has the same structure for every two contents. -/
theorem appendMessage_plain_text (c : String) :
    (∀ (s : Chat.State) (isUser : Bool),
      Chat.appendMessage s (.json (.str c)) isUser =
        .ok { s with chatMessages := s.chatMessages ++ [Chat.messageDiv c isUser] }) ∧
    (∀ isUser : Bool,
      (Chat.messageDiv c isUser).content = some c ∧
      (Chat.messageDiv c isUser).markups =
        [if isUser then "<i class=\"fas fa-user\"></i>"
         else "<i class=\"fas fa-robot\"></i>"] ∧
      ∀ d : String, (Chat.messageDiv c isUser).shape =
        (Chat.messageDiv d isUser).shape) ∧
    (∀ (s : Projects.State) (role : String),
      Projects.appendMessage s role (.json (.str c)) =
        .ok ({ s with
                chatMessages := s.chatMessages ++
                  [{ nid := s.created, element := Projects.messageDiv role c }]
                created := s.created + 1 }, s.created)) ∧
    (∀ role : String,
      (Projects.messageDiv role c).content = some c ∧
      (Projects.messageDiv role c).markups =
        [if role = "user" then "<i class=\"fas fa-user\"></i>"
         else "<i class=\"fas fa-robot\"></i>"] ∧
      ∀ d : String, (Projects.messageDiv role c).shape =
        (Projects.messageDiv role d).shape) := by
  refine ⟨?_, ?_, ?_, ?_⟩
  · intro s isUser
    exact chat_appendMessage_str s c isUser
  · intro isUser
    refine ⟨?_, ?_, ?_⟩
    · simp [Chat.messageDiv, Element.content]
    · simp [Chat.messageDiv, Element.markups]
    · intro d
      simp [Chat.messageDiv, Element.shape]
  · intro s role
    exact projects_appendMessage_str s role c
  · intro role
    refine ⟨?_, ?_, ?_⟩
    · simp [Projects.messageDiv, Element.content]
    · simp [Projects.messageDiv, Element.markups]
    · intro d
      simp [Projects.messageDiv, Element.shape]

/-! ## Filter navigation -/

theorem projects_foldl_collect (selects : List Projects.Select)
    (params : List (String × String)) :
    selects.foldl (fun params select =>
        if select.value ≠ "" then
          params ++ [(Projects.paramName select.dataFilter, select.value)]
        else params) params =
      params ++ (selects.filter (fun select => select.value ≠ "")).map
        (fun select => (Projects.paramName select.dataFilter, select.value)) := by
  induction selects generalizing params with
  | nil => simp
  | cons select rest ih =>
      rw [List.foldl_cons, ih]
      by_cases hv : select.value = "" <;> simp [hv]

theorem char_ofNat_toNat_small : ∀ b, b < 128 → (Char.ofNat b).toNat = b := by decide

theorem hexValue_hexDigit : ∀ n, n < 16 →
    Projects.hexValue (Projects.hexDigit n) = some n ∧
    Projects.hexDigit n ≠ '&' ∧ Projects.hexDigit n ≠ '=' := by decide

theorem percentDecode_cons_plain (c : Char) (rest : List Char) (h : c ≠ '%') :
    Projects.percentDecode (c :: rest) =
      (if c = '+' then 0x20 else c.toNat) :: Projects.percentDecode rest := by
  match rest with
  | [] => simp [Projects.percentDecode]
  | [d] => simp [Projects.percentDecode]
  | d :: e :: r => simp [Projects.percentDecode, h]

/-- Decoding undoes the encoding of one byte. -/
theorem percentDecode_urlencodeByte (b : Nat) (hb : b < 256) (rest : List Char) :
    Projects.percentDecode (Projects.urlencodeByte b ++ rest) =
      b :: Projects.percentDecode rest := by
  unfold Projects.urlencodeByte
  split_ifs with h1 h2
  · subst h1
    rw [List.singleton_append, percentDecode_cons_plain _ _ (by decide)]
    simp
  · have hlt : b < 128 := by
      simp only [Bool.or_eq_true, Bool.and_eq_true, decide_eq_true_eq] at h2
      omega
    have hn := char_ofNat_toNat_small b hlt
    have hp : Char.ofNat b ≠ '%' := by
      intro he
      have : (Char.ofNat b).toNat = 37 := by rw [he]; rfl
      simp only [Bool.or_eq_true, Bool.and_eq_true, decide_eq_true_eq] at h2
      omega
    have hq : Char.ofNat b ≠ '+' := by
      intro he
      have : (Char.ofNat b).toNat = 43 := by rw [he]; rfl
      simp only [Bool.or_eq_true, Bool.and_eq_true, decide_eq_true_eq] at h2
      omega
    rw [List.singleton_append, percentDecode_cons_plain _ _ hp]
    simp [hq, hn]
  · have ha := (hexValue_hexDigit (b / 16) (by omega)).1
    have hl := (hexValue_hexDigit (b % 16) (by omega)).1
    simp only [List.cons_append, List.nil_append, Projects.percentDecode, ha, hl, if_true]
    congr 1
    omega

/-- The characters of an encoded byte are neither `&` nor `=`. -/
theorem urlencodeByte_no_separator (b : Nat) (hb : b < 256) :
    ∀ c ∈ Projects.urlencodeByte b, c ≠ '&' ∧ c ≠ '=' := by
  unfold Projects.urlencodeByte
  split_ifs with h1 h2
  · intro c hc
    simp at hc
    subst hc
    decide
  · have hlt : b < 128 := by
      simp only [Bool.or_eq_true, Bool.and_eq_true, decide_eq_true_eq] at h2
      omega
    have hn := char_ofNat_toNat_small b hlt
    intro c hc
    simp at hc
    subst hc
    constructor
    · intro he
      have : (Char.ofNat b).toNat = 38 := by rw [he]; rfl
      simp only [Bool.or_eq_true, Bool.and_eq_true, decide_eq_true_eq] at h2
      omega
    · intro he
      have : (Char.ofNat b).toNat = 61 := by rw [he]; rfl
      simp only [Bool.or_eq_true, Bool.and_eq_true, decide_eq_true_eq] at h2
      omega
  · have ha := (hexValue_hexDigit (b / 16) (by omega)).2
    have hl := (hexValue_hexDigit (b % 16) (by omega)).2
    intro c hc
    simp at hc
    rcases hc with hc | hc | hc
    · subst hc; decide
    · subst hc; exact ha
    · subst hc; exact hl

theorem utf8Bytes_lt (s : String) : ∀ b ∈ Projects.utf8Bytes s, b < 256 := by
  intro b hb
  simp only [Projects.utf8Bytes, List.mem_map] at hb
  obtain ⟨u, _, rfl⟩ := hb
  exact u.toNat_lt

theorem urlencode_data (s : String) :
    (Projects.urlencode s).data = (Projects.utf8Bytes s).flatMap Projects.urlencodeByte := by
  simp [Projects.urlencode, Projects.utf8Bytes, List.flatMap_map]

theorem percentDecode_flatMap (bs : List Nat) (h : ∀ b ∈ bs, b < 256) (rest : List Char) :
    Projects.percentDecode (bs.flatMap Projects.urlencodeByte ++ rest) =
      bs ++ Projects.percentDecode rest := by
  induction bs with
  | nil => simp
  | cons b bs ih =>
      rw [List.flatMap_cons, List.append_assoc,
        percentDecode_urlencodeByte b (h b (List.mem_cons_self _ _)),
        ih (fun x hx => h x (List.mem_cons_of_mem _ hx))]
      rfl

theorem percentDecode_urlencode (s : String) :
    Projects.percentDecode (Projects.urlencode s).data = Projects.utf8Bytes s := by
  have h := percentDecode_flatMap (Projects.utf8Bytes s) (utf8Bytes_lt s) []
  simpa [urlencode_data, Projects.percentDecode] using h

theorem urlencode_no_separator (s : String) :
    ∀ c ∈ (Projects.urlencode s).data, c ≠ '&' ∧ c ≠ '=' := by
  intro c hc
  rw [urlencode_data, List.mem_flatMap] at hc
  obtain ⟨b, hb, hcb⟩ := hc
  exact urlencodeByte_no_separator b (utf8Bytes_lt s b hb) c hcb

theorem intercalate_go_data (acc sep : String) (l : List String) :
    (String.intercalate.go acc sep l).data =
      acc.data ++ l.flatMap (fun a => sep.data ++ a.data) := by
  induction l generalizing acc with
  | nil => simp [String.intercalate.go]
  | cons a as ih => simp [String.intercalate.go, ih, String.data_append]

theorem splitOn_pieces (p : List Char) (ps : List (List Char))
    (hp : '&' ∉ p) (hps : ∀ q ∈ ps, '&' ∉ q) :
    (p ++ ps.flatMap (fun q => '&' :: q)).splitOn '&' = p :: ps := by
  have hno : ∀ x ∈ p, ¬ ((x == '&') = true) := by
    intro x hx hxe
    have : x = '&' := by simpa using hxe
    exact hp (this ▸ hx)
  induction ps generalizing p with
  | nil =>
      simp only [List.flatMap_nil, List.append_nil, List.splitOn]
      exact List.splitOnP_eq_single (fun x => x == '&') p hno
  | cons q qs ih =>
      have hnq : ∀ x ∈ q, ¬ ((x == '&') = true) := by
        intro x hx hxe
        have : x = '&' := by simpa using hxe
        exact hps q (List.mem_cons_self _ _) (this ▸ hx)
      have hq := ih q (hps q (List.mem_cons_self _ _))
        (fun r hr => hps r (List.mem_cons_of_mem _ hr)) hnq
      simp only [List.flatMap_cons, List.cons_append, List.splitOn] at hq ⊢
      rw [List.splitOnP_first (fun x => x == '&') p hno '&' (by decide), hq]

/-- The pieces of a serialization: one `name=value` per pair. -/
theorem paramsToString_data (kv : String × String) (rest : List (String × String)) :
    (Projects.paramsToString (kv :: rest)).data =
      ((Projects.urlencode kv.1).data ++ '=' :: (Projects.urlencode kv.2).data) ++
        (rest.map (fun p => (Projects.urlencode p.1).data ++
          '=' :: (Projects.urlencode p.2).data)).flatMap (fun q => '&' :: q) := by
  simp [Projects.paramsToString, String.intercalate, intercalate_go_data,
    String.data_append, List.flatMap_map]

theorem parse_piece (name value : String) :
    (Projects.percentDecode
        (((Projects.urlencode name).data ++ '=' :: (Projects.urlencode value).data).takeWhile
          (fun c => c ≠ '=')),
      Projects.percentDecode
        ((((Projects.urlencode name).data ++ '=' :: (Projects.urlencode value).data).dropWhile
          (fun c => c ≠ '=')).drop 1)) =
      (Projects.utf8Bytes name, Projects.utf8Bytes value) := by
  have hn : ∀ c ∈ (Projects.urlencode name).data, (decide (c ≠ '=')) = true := by
    intro c hc
    simpa using (urlencode_no_separator name c hc).2
  have ht : ((Projects.urlencode name).data ++ '=' :: (Projects.urlencode value).data).takeWhile
      (fun c => decide (c ≠ '=')) = (Projects.urlencode name).data := by
    rw [List.takeWhile_append_of_pos hn]
    simp
  have hd : ((Projects.urlencode name).data ++ '=' :: (Projects.urlencode value).data).dropWhile
      (fun c => decide (c ≠ '=')) = '=' :: (Projects.urlencode value).data := by
    rw [List.dropWhile_append_of_pos hn]
    simp
  rw [ht, hd]
  simp [percentDecode_urlencode]

/-- Parsing the serialization of a list of pairs gives back, in order, the
UTF-8 bytes of every name and value. -/
theorem parseQuery_paramsToString (params : List (String × String)) :
    Projects.parseQuery (Projects.paramsToString params) =
      params.map (fun kv => (Projects.utf8Bytes kv.1, Projects.utf8Bytes kv.2)) := by
  cases params with
  | nil => decide
  | cons kv rest =>
      have hamp : ∀ p : String × String,
          '&' ∉ (Projects.urlencode p.1).data ++ '=' :: (Projects.urlencode p.2).data := by
        intro p hmem
        rcases List.mem_append.mp hmem with h | h
        · exact (urlencode_no_separator p.1 _ h).1 rfl
        · rcases List.mem_cons.mp h with h | h
          · exact absurd h (by decide)
          · exact (urlencode_no_separator p.2 _ h).1 rfl
      rw [Projects.parseQuery, paramsToString_data,
        splitOn_pieces _ _ (hamp kv) (by
          intro q hq
          obtain ⟨p, _, rfl⟩ := List.mem_map.mp hq
          exact hamp p)]
      rw [← List.map_cons (fun p : String × String =>
        (Projects.urlencode p.1).data ++ '=' :: (Projects.urlencode p.2).data) kv rest]
      rw [List.filter_eq_self.mpr (by
        intro q hq
        obtain ⟨p, _, rfl⟩ := List.mem_map.mp hq
        simp)]
      rw [List.map_map]
      apply List.map_congr_left
      intro p _
      exact parse_piece p.1 p.2

/-- C9: for every list of filter controls, given by their declared filter name
and current value, the parameters collected by `applyFilters` are exactly the
(name, value) pairs of the controls whose value is not empty, one per control
and in control order, so no parameter has an empty value; the address navigated
to is the current path, then "?", then a query string; and that query string,
read back by the form-urlencoded parser, yields exactly the bytes of these names
and values, pair by pair and in order. -/
theorem applyFilters_query (pathname : String) (controls : List (String × String)) :
    Projects.collectParams
        (controls.map (fun c => { dataFilter := some c.1, value := c.2 })) =
      controls.filter (fun c => c.2 ≠ "") ∧
    (∀ p ∈ Projects.collectParams
        (controls.map (fun c => { dataFilter := some c.1, value := c.2 })), p.2 ≠ "") ∧
    Projects.applyFilters pathname
        (controls.map (fun c => { dataFilter := some c.1, value := c.2 })) =
      pathname ++ "?" ++ Projects.paramsToString (controls.filter (fun c => c.2 ≠ "")) ∧
    Projects.parseQuery (Projects.paramsToString (controls.filter (fun c => c.2 ≠ ""))) =
      (controls.filter (fun c => c.2 ≠ "")).map
        (fun c => (Projects.utf8Bytes c.1, Projects.utf8Bytes c.2)) := by
  have hc : Projects.collectParams
      (controls.map (fun c => { dataFilter := some c.1, value := c.2 })) =
      controls.filter (fun c => c.2 ≠ "") := by
    rw [Projects.collectParams, projects_foldl_collect]
    induction controls with
    | nil => simp
    | cons c rest ih =>
        by_cases hv : c.2 = ""
        · simpa [hv] using ih
        · simpa [hv, Projects.paramName] using ih
  refine ⟨hc, ?_, ?_, parseQuery_paramsToString _⟩
  · intro p hp
    rw [hc] at hp
    simpa using (List.mem_filter.mp hp).2
  · simp [Projects.applyFilters, hc]

/-- C9 at the path "/projects" with three controls, the second one empty: the
address carries the first and the third, the third one encoded. -/
theorem applyFilters_query_witness :
    Projects.applyFilters "/projects"
        ([("type", "metro"), ("state", ""), ("q", "a b&c")].map
          (fun c => { dataFilter := some c.1, value := c.2 })) =
      "/projects?type=metro&q=a+b%26c" ∧
    Projects.parseQuery "type=metro&q=a+b%26c" =
      [(Projects.utf8Bytes "type", Projects.utf8Bytes "metro"),
       (Projects.utf8Bytes "q", Projects.utf8Bytes "a b&c")] := by
  have key := applyFilters_query "/projects" [("type", "metro"), ("state", ""), ("q", "a b&c")]
  have hq : Projects.paramsToString
      ([("type", "metro"), ("state", ""), ("q", "a b&c")].filter (fun c => c.2 ≠ "")) =
      "type=metro&q=a+b%26c" := by decide
  refine ⟨?_, ?_⟩
  · rw [key.2.2.1, hq]; decide
  · rw [← hq, key.2.2.2]; decide

/-! ## Suggestion chips -/

/-- C10: there are five suggestion texts; for each of them and every state,
clicking its chip gives the same state (transcript, input field, indicator,
issued requests, pending submissions) as setting the input value to the text and
submitting; the text is not empty and unchanged by trimming, so the click
appends the user entry holding exactly that text and issues the request whose
`message` is exactly that text. -/
theorem chip_click_is_manual_submit (suggestion : String)
    (h : suggestion ∈ Chat.suggestions) :
    Chat.suggestions.length = 5 ∧
    trim suggestion = suggestion ∧ suggestion ≠ "" ∧
    ∀ s : Chat.State,
      Chat.chipClick s suggestion =
        Chat.step (Chat.step s (.input suggestion)) .submit ∧
      (Chat.chipClick s suggestion).chatMessages =
        s.chatMessages ++ [Chat.messageDiv suggestion true] ∧
      (Chat.messageDiv suggestion true).isUser = true ∧
      (Chat.messageDiv suggestion true).content = some suggestion ∧
      (Chat.chipClick s suggestion).fetches =
        s.fetches ++ [{ url := "/api/chat", method := "POST",
                        headers := [("Content-Type", "application/json")],
                        body := [("message", suggestion)] }] := by
  have hall : ∀ t ∈ Chat.suggestions, trim t = t ∧ t ≠ "" := by decide
  obtain ⟨ht, hne⟩ := hall suggestion h
  refine ⟨rfl, ht, hne, ?_⟩
  intro s
  refine ⟨rfl, ?_, ?_, ?_, ?_⟩
  · simp [Chat.chipClick, Chat.submit, ht, hne, chat_appendMessage_str,
      Chat.showTypingIndicator]
  · simp [Chat.messageDiv, Element.isUser]
  · simp [Chat.messageDiv, Element.content]
  · simp [Chat.chipClick, Chat.submit, ht, hne, chat_appendMessage_str,
      Chat.showTypingIndicator, Chat.chatRequest]

/-- C10 at the first chip, clicked on the freshly set up page. -/
theorem chip_click_is_manual_submit_witness :
    "Show me recent metro projects" ∈ Chat.suggestions ∧
    Chat.step (Chat.init []) (.chip 0) =
      Chat.run (Chat.init []) [.input "Show me recent metro projects", .submit] ∧
    (Chat.step (Chat.init []) (.chip 0)).fetches =
      [{ url := "/api/chat", method := "POST",
         headers := [("Content-Type", "application/json")],
         body := [("message", "Show me recent metro projects")] }] :=
  ⟨by decide,
   ((chip_click_is_manual_submit "Show me recent metro projects" (by decide)).2.2.2
      (Chat.init [])).1,
   ((chip_click_is_manual_submit "Show me recent metro projects" (by decide)).2.2.2
      (Chat.init [])).2.2.2.2⟩

/-! ## The shared typing indicator of chat.js -/

theorem chat_resume_fields (s : Chat.State) (o : Outcome) :
    (Chat.resume s o).typingIndicator = "none" ∧
    (Chat.resume s o).pending = s.pending ∧
    (Chat.resume s o).fetches = s.fetches := by
  cases o with
  | rejected =>
      simp [Chat.resume, Chat.tryBlock, Chat.appendErrorMessage, Chat.hideTypingIndicator]
  | response ok body =>
      cases body with
      | rejects =>
          simp [Chat.resume, Chat.tryBlock, Chat.appendErrorMessage, Chat.hideTypingIndicator]
      | json data =>
          cases ok with
          | true =>
              cases hg : getProperty data "response" with
              | error t =>
                  simp [Chat.resume, Chat.tryBlock, hg, Chat.appendErrorMessage,
                    Chat.hideTypingIndicator]
              | ok v =>
                  cases ht : toTextContent v <;>
                    simp [Chat.resume, Chat.tryBlock, hg, ht, Chat.appendErrorMessage,
                      Chat.appendMessage, Chat.hideTypingIndicator]
          | false =>
              cases hg : getProperty data "error" <;>
                simp [Chat.resume, Chat.tryBlock, hg, Chat.appendErrorMessage,
                  Chat.hideTypingIndicator]

theorem chat_submit_fields (s : Chat.State) :
    ((Chat.submit s).typingIndicator = s.typingIndicator ∧
      (Chat.submit s).pending = s.pending ∧ (Chat.submit s).fetches = s.fetches) ∨
    ((Chat.submit s).typingIndicator = "flex" ∧
      (Chat.submit s).pending = s.pending ++ [s.fetches.length] ∧
      (Chat.submit s).fetches.length = s.fetches.length + 1) := by
  by_cases h : trim s.chatInput = ""
  · left; simp [Chat.submit, h]
  · right
    simp [Chat.submit, h, chat_appendMessage_str, Chat.showTypingIndicator]

/-- Effect of one event of chat.js on the indicator, the pending submissions
and the issued requests: nothing, a request issued, or a request settled. -/
theorem chat_step_fields (s : Chat.State) (e : Chat.Event) :
    ((Chat.step s e).typingIndicator = s.typingIndicator ∧
      (Chat.step s e).pending = s.pending ∧ (Chat.step s e).fetches = s.fetches) ∨
    ((Chat.step s e).typingIndicator = "flex" ∧
      (Chat.step s e).pending = s.pending ++ [s.fetches.length] ∧
      (Chat.step s e).fetches.length = s.fetches.length + 1) ∨
    ((Chat.step s e).typingIndicator = "none" ∧
      (∃ rid ∈ s.pending, (Chat.step s e).pending = s.pending.erase rid) ∧
      (Chat.step s e).fetches = s.fetches) := by
  cases e with
  | input value => left; simp [Chat.step]
  | submit =>
      rcases chat_submit_fields s with h | h
      · left; simpa [Chat.step] using h
      · right; left; simpa [Chat.step] using h
  | chip i =>
      simp only [Chat.step]
      split
      · rename_i suggestion _
        rcases chat_submit_fields { s with chatInput := suggestion } with h | h
        · left; simpa [Chat.chipClick] using h
        · right; left; simpa [Chat.chipClick] using h
      · left; simp
  | settle rid o =>
      by_cases hr : rid ∈ s.pending
      · right; right
        have hf := chat_resume_fields s o
        simp only [Chat.step, hr, if_true]
        exact ⟨hf.1, ⟨rid, hr, rfl⟩, hf.2.2⟩
      · left; simp [Chat.step, hr]

theorem chat_visible_imp_outstanding (s : Chat.State) (events : List Chat.Event)
    (h : Chat.visible s = true → 0 < Chat.outstanding s) :
    Chat.visible (Chat.run s events) = true → 0 < Chat.outstanding (Chat.run s events) := by
  induction events generalizing s with
  | nil => simpa [Chat.run] using h
  | cons e es ih =>
      have hrun : Chat.run s (e :: es) = Chat.run (Chat.step s e) es := rfl
      rw [hrun]
      apply ih
      rcases chat_step_fields s e with hf | hf | hf
      · simpa [Chat.visible, Chat.outstanding, hf.1, hf.2.1] using h
      · simp [Chat.visible, Chat.outstanding, hf.2.1]
      · simp [Chat.visible, hf.1]

theorem chat_serial_visible_iff (s : Chat.State) (events : List Chat.Event)
    (h : (Chat.visible s = true ↔ 0 < Chat.outstanding s) ∧ Chat.outstanding s ≤ 1)
    (hs : Chat.Serial s events) :
    (Chat.visible (Chat.run s events) = true ↔ 0 < Chat.outstanding (Chat.run s events)) ∧
    Chat.outstanding (Chat.run s events) ≤ 1 := by
  induction events generalizing s with
  | nil => simpa [Chat.run] using h
  | cons e es ih =>
      have hrun : Chat.run s (e :: es) = Chat.run (Chat.step s e) es := rfl
      rw [hrun]
      obtain ⟨hissue, hrest⟩ := hs
      apply ih _ _ hrest
      rcases chat_step_fields s e with hf | hf | hf
      · simpa [Chat.visible, Chat.outstanding, hf.1, hf.2.1] using h
      · have h0 : Chat.outstanding s = 0 := by
          apply hissue
          simp [Chat.issues, hf.2.2]
        have hp : s.pending = [] := by
          simpa [Chat.outstanding] using h0
        simp [Chat.visible, Chat.outstanding, hf.1, hf.2.1, hp]
      · obtain ⟨rid, hrid, hpe⟩ := hf.2.1
        have hlen : (s.pending.erase rid).length = s.pending.length - 1 :=
          List.length_erase_of_mem hrid
        have hle : s.pending.length ≤ 1 := h.2
        simp [Chat.visible, Chat.outstanding, hf.1, hpe, hlen]
        omega

/-- C7: chat.js breaks the claim.  A second submission starts before the
first settles; when the first request settles, `hideTypingIndicator` hides the
shared indicator while the second request is still outstanding.  On the same
events projects.js, which gives every submission its own indicator, still shows
one indicator for the one outstanding request. -/
theorem shared_indicator_counterexample :
    Chat.outstanding (Chat.run (Chat.init [])
      [.input "first", .submit, .input "second", .submit,
       .settle 0 (.response true (.json (.obj [("response", .str "done")])))]) = 1 ∧
    Chat.visible (Chat.run (Chat.init [])
      [.input "first", .submit, .input "second", .submit,
       .settle 0 (.response true (.json (.obj [("response", .str "done")])))]) = false ∧
    Projects.outstanding (Projects.run (Projects.init none)
      [.input "first", .submit, .input "second", .submit,
       .settle 1 (.response true (.json (.obj [("response", .str "done")])))]) = 1 ∧
    Projects.indicators (Projects.run (Projects.init none)
      [.input "first", .submit, .input "second", .submit,
       .settle 1 (.response true (.json (.obj [("response", .str "done")])))]) = 1 := by
  refine ⟨?_, ?_, ?_, ?_⟩ <;> rfl

/-- What chat.js does keep of the contract of the indicator: after every
sequence of events the shared typing indicator is visible only when at least one
request is outstanding; and after every sequence in which no request is issued
while another is outstanding, it is visible exactly when a request is
outstanding. -/
theorem shared_indicator_visible (page : List Element) (events : List Chat.Event) :
    (Chat.visible (Chat.run (Chat.init page) events) = true →
      0 < Chat.outstanding (Chat.run (Chat.init page) events)) ∧
    (Chat.Serial (Chat.init page) events →
      (Chat.visible (Chat.run (Chat.init page) events) = true ↔
        0 < Chat.outstanding (Chat.run (Chat.init page) events))) := by
  constructor
  · apply chat_visible_imp_outstanding
    simp [Chat.visible, Chat.init]
  · intro hs
    refine (chat_serial_visible_iff (Chat.init page) events ?_ hs).1
    simp [Chat.visible, Chat.outstanding, Chat.init]

/-- A serial run of chat.js: a submission, its failure, a click on a chip; the
indicator is visible and one request is outstanding. -/
theorem shared_indicator_visible_witness :
    Chat.Serial (Chat.init [])
      [.input "first", .submit, .settle 0 .rejected, .chip 2] ∧
    Chat.visible (Chat.run (Chat.init [])
      [.input "first", .submit, .settle 0 .rejected, .chip 2]) = true ∧
    0 < Chat.outstanding (Chat.run (Chat.init [])
      [.input "first", .submit, .settle 0 .rejected, .chip 2]) := by
  have hs : Chat.Serial (Chat.init [])
      [.input "first", .submit, .settle 0 .rejected, .chip 2] := by
    simp [Chat.Serial]
    decide
  have hv : Chat.visible (Chat.run (Chat.init [])
      [.input "first", .submit, .settle 0 .rejected, .chip 2]) = true := rfl
  exact ⟨hs, hv, ((shared_indicator_visible [] _).2 hs).mp hv⟩

/-! ## The typing indicators of projects.js -/

/-- Effect of the settlement handler of projects.js: the entry with the
identity of the indicator is filtered out and one message entry is appended. -/
theorem projects_resume_effect (s : Projects.State) (k : Nat) (o : Outcome) :
    ∃ e : Element, e.isTypingIndicator = false ∧
      (Projects.resume s k o).chatMessages =
        s.chatMessages.filter (fun n => n.nid ≠ k) ++ [{ nid := s.created, element := e }] ∧
      (Projects.resume s k o).created = s.created + 1 ∧
      (Projects.resume s k o).pending = s.pending := by
  by_cases hf : o.isFailure = true
  · refine ⟨Projects.errorDiv fallbackText, rfl, (projects_resume_failure s k o hf).1,
      (projects_resume_failure s k o hf).2, ?_⟩
    cases o with
    | rejected =>
        simp [Projects.resume, Projects.tryBlock, Projects.appendErrorMessage,
          Projects.appendChild, Projects.remove]
    | response ok body =>
        cases body with
        | rejects =>
            simp [Projects.resume, Projects.tryBlock, Projects.appendErrorMessage,
              Projects.appendChild, Projects.remove]
        | json data =>
            cases ok with
            | true => simp [Outcome.isFailure] at hf
            | false =>
                cases hg : getProperty data "error" <;>
                  simp [Projects.resume, Projects.tryBlock, hg, Projects.appendErrorMessage,
                    Projects.appendChild, Projects.remove]
  · cases o with
    | rejected => simp [Outcome.isFailure] at hf
    | response ok body =>
        cases body with
        | rejects => simp [Outcome.isFailure] at hf
        | json data =>
            cases ok with
            | false => simp [Outcome.isFailure] at hf
            | true =>
                cases hg : getProperty data "response" with
                | error t =>
                    refine ⟨Projects.errorDiv fallbackText, rfl, ?_, ?_, ?_⟩ <;>
                      simp [Projects.resume, Projects.tryBlock, hg,
                        Projects.appendErrorMessage, Projects.appendChild, Projects.remove,
                        List.filter_filter]
                | ok v =>
                    cases ht : toTextContent v with
                    | error t =>
                        refine ⟨Projects.errorDiv fallbackText, rfl, ?_, ?_, ?_⟩ <;>
                          simp [Projects.resume, Projects.tryBlock, hg, ht,
                            Projects.appendMessage, Projects.appendErrorMessage,
                            Projects.appendChild, Projects.remove, List.filter_filter]
                    | ok text =>
                        have hs := projects_resume_ok s k data v text hg ht
                        exact ⟨Projects.messageDiv "assistant" text, rfl, hs.1, hs.2.1,
                          hs.2.2⟩

/-- Effect of the submit handler of projects.js: nothing, or a user entry and
an indicator appended and the indicator recorded as pending. -/
theorem projects_submit_effect (s : Projects.State) :
    Projects.submit s = s ∨
    ((Projects.submit s).chatMessages =
        s.chatMessages ++
          [{ nid := s.created
             element := Projects.messageDiv "user" (trim s.chatInput) },
           { nid := s.created + 1, element := Projects.indicatorDiv }] ∧
      (Projects.submit s).created = s.created + 2 ∧
      (Projects.submit s).pending = s.pending ++ [s.created + 1]) := by
  by_cases h : trim s.chatInput = ""
  · left; simp [Projects.submit, h]
  · right
    simp [Projects.submit, h, projects_appendMessage_str, Projects.appendTypingIndicator,
      Projects.appendChild]

theorem projects_pending_nodup (s : Projects.State) (h : Projects.WellFormed s) :
    s.pending.Nodup := by
  obtain ⟨_, hnd, hind⟩ := h
  have h1 : (s.chatMessages.filter (fun n => n.element.isTypingIndicator)).map
      (fun n => n.nid) = s.pending := by
    rw [hind]; simp [Function.comp_def]
  rw [← h1]
  exact hnd.sublist ((List.filter_sublist _).map _)

theorem projects_wellFormed_init (projectId : Option String) :
    Projects.WellFormed (Projects.init projectId) := by
  simp [Projects.WellFormed, Projects.init]

theorem projects_wellFormed_submit (s : Projects.State) (h : Projects.WellFormed s) :
    Projects.WellFormed (Projects.submit s) := by
  rcases projects_submit_effect s with he | ⟨hc, hcr, hp⟩
  · rw [he]; exact h
  · obtain ⟨hlt, hnd, hind⟩ := h
    refine ⟨?_, ?_, ?_⟩
    · intro n hn
      rw [hc] at hn
      rw [hcr]
      simp at hn
      rcases hn with hn | hn | hn
      · have := hlt n hn; omega
      · subst hn; simp
      · subst hn; simp
    · rw [hc]
      simp only [List.map_append, List.map_cons, List.map_nil]
      rw [List.nodup_append]
      refine ⟨hnd, by simp, ?_⟩
      intro a ha hb
      simp at ha hb
      obtain ⟨n, hn, rfl⟩ := ha
      have := hlt n hn
      omega
    · rw [hc, hp, List.filter_append, hind]
      simp [Projects.messageDiv, Projects.indicatorDiv, Element.isTypingIndicator]

theorem projects_wellFormed_settle (s : Projects.State) (k : Nat) (o : Outcome)
    (h : Projects.WellFormed s) :
    Projects.WellFormed { Projects.resume s k o with pending := s.pending.erase k } := by
  obtain ⟨e, he, hc, hcr, _⟩ := projects_resume_effect s k o
  have hpn := projects_pending_nodup s h
  obtain ⟨hlt, hnd, hind⟩ := h
  refine ⟨?_, ?_, ?_⟩
  · intro n hn
    simp only [hc, hcr] at hn ⊢
    simp at hn
    rcases hn with hn | hn
    · have := hlt n hn.1; omega
    · subst hn; simp
  · simp only [hc, List.map_append, List.map_cons, List.map_nil]
    rw [List.nodup_append]
    refine ⟨hnd.sublist ((List.filter_sublist _).map _), by simp, ?_⟩
    intro a ha hb
    simp at ha hb
    obtain ⟨n, ⟨hn, _⟩, rfl⟩ := ha
    have := hlt n hn
    omega
  · simp only [hc]
    rw [List.filter_append, List.filter_filter]
    have hcomm : s.chatMessages.filter
        (fun n => n.element.isTypingIndicator && decide (n.nid ≠ k)) =
        (s.chatMessages.filter (fun n => n.element.isTypingIndicator)).filter
          (fun n => decide (n.nid ≠ k)) := by
      rw [List.filter_filter]
      congr 1
      funext n
      exact Bool.and_comm _ _
    rw [hcomm, hind, hpn.erase_eq_filter]
    simp only [he, List.filter_map, Function.comp_def, List.filter_cons, List.filter_nil,
      List.append_nil, Bool.false_eq_true, if_false]
    congr 2
    funext x
    by_cases hx : x = k <;> simp [hx]

/-- Every event of projects.js keeps the state well formed. -/
theorem projects_wellFormed_step (s : Projects.State) (e : Projects.Event)
    (h : Projects.WellFormed s) : Projects.WellFormed (Projects.step s e) := by
  cases e with
  | input value => exact h
  | submit => exact projects_wellFormed_submit s h
  | settle k o =>
      by_cases hk : k ∈ s.pending
      · simp only [Projects.step, hk, if_true]
        exact projects_wellFormed_settle s k o h
      · simp only [Projects.step, hk, if_false]
        exact h

/-- Every state reached from a well-formed state is well formed. -/
theorem projects_wellFormed_run (s : Projects.State) (events : List Projects.Event)
    (h : Projects.WellFormed s) : Projects.WellFormed (Projects.run s events) := by
  induction events generalizing s with
  | nil => exact h
  | cons e es ih => exact ih _ (projects_wellFormed_step s e h)

/-- In a well-formed state the indicator of a pending submission sits in the
transcript exactly once, and no other entry has its identity. -/
theorem projects_indicator_split (s : Projects.State) (k : Nat)
    (h : Projects.WellFormed s) (hk : k ∈ s.pending) :
    ∃ l1 l2 : List Projects.Node,
      s.chatMessages = l1 ++ { nid := k, element := Projects.indicatorDiv } :: l2 ∧
      s.chatMessages.filter (fun n => n.nid ≠ k) = l1 ++ l2 ∧
      ∀ n ∈ l1 ++ l2, n.nid ≠ k := by
  obtain ⟨_, hnd, hind⟩ := h
  have hmem : ({ nid := k, element := Projects.indicatorDiv } : Projects.Node) ∈
      s.chatMessages := by
    have : ({ nid := k, element := Projects.indicatorDiv } : Projects.Node) ∈
        s.chatMessages.filter (fun n => n.element.isTypingIndicator) := by
      rw [hind]
      exact List.mem_map.mpr ⟨k, hk, rfl⟩
    exact List.mem_of_mem_filter this
  obtain ⟨l1, l2, hsplit⟩ := List.append_of_mem hmem
  rw [hsplit] at hnd
  simp only [List.map_append, List.map_cons] at hnd
  rw [List.nodup_append] at hnd
  obtain ⟨_, h2, hdis⟩ := hnd
  rw [List.nodup_cons] at h2
  have hl1 : ∀ n ∈ l1, n.nid ≠ k := by
    intro n hn hnk
    exact hdis (List.mem_map.mpr ⟨n, hn, rfl⟩) (by simp [hnk])
  have hl2 : ∀ n ∈ l2, n.nid ≠ k := by
    intro n hn hnk
    exact h2.1 (List.mem_map.mpr ⟨n, hn, hnk⟩)
  have hall : ∀ n ∈ l1 ++ l2, n.nid ≠ k := by
    intro n hn
    rcases List.mem_append.mp hn with hn | hn
    · exact hl1 n hn
    · exact hl2 n hn
  refine ⟨l1, l2, hsplit, ?_, hall⟩
  rw [hsplit, List.filter_append, List.filter_cons]
  have e1 : l1.filter (fun n => decide (n.nid ≠ k)) = l1 :=
    List.filter_eq_self.mpr (fun n hn => by simpa using hl1 n hn)
  have e2 : l2.filter (fun n => decide (n.nid ≠ k)) = l2 :=
    List.filter_eq_self.mpr (fun n hn => by simpa using hl2 n hn)
  rw [e1, e2]
  simp

/-- One event of projects.js only appends to the message entries. -/
theorem projects_messages_step (s : Projects.State) (e : Projects.Event)
    (h : Projects.WellFormed s) :
    ∃ added, Projects.messages (Projects.step s e) = Projects.messages s ++ added := by
  cases e with
  | input value => exact ⟨[], by simp [Projects.step, Projects.messages]⟩
  | submit =>
      rcases projects_submit_effect s with he | ⟨hc, _, _⟩
      · exact ⟨[], by simp [Projects.step, he]⟩
      · refine ⟨[{ nid := s.created
                   element := Projects.messageDiv "user" (trim s.chatInput) }],
          ?_⟩
        simp [Projects.step, Projects.messages, hc, List.filter_append,
          Projects.messageDiv, Projects.indicatorDiv, Element.isTypingIndicator]
  | settle k o =>
      by_cases hk : k ∈ s.pending
      · obtain ⟨el, hel, hc, _, _⟩ := projects_resume_effect s k o
        obtain ⟨l1, l2, hsplit, hfilter, _⟩ := projects_indicator_split s k h hk
        refine ⟨[{ nid := s.created, element := el }], ?_⟩
        simp only [Projects.step, hk, if_true, Projects.messages, hc, hfilter]
        rw [hsplit]
        have hi : Projects.indicatorDiv.isTypingIndicator = true := rfl
        simp [List.filter_append, List.filter_cons, hel, hi]
      · exact ⟨[], by simp [Projects.step, hk]⟩

/-- The message entries of a state are an initial segment of the message
entries of every later state. -/
theorem projects_messages_run (s : Projects.State) (more : List Projects.Event)
    (h : Projects.WellFormed s) :
    Projects.messages s <+: Projects.messages (Projects.run s more) := by
  induction more generalizing s with
  | nil => exact List.prefix_refl _
  | cons e es ih =>
      obtain ⟨added, ha⟩ := projects_messages_step s e h
      have h1 : Projects.messages s <+: Projects.messages (Projects.step s e) :=
        ⟨added, ha.symm⟩
      exact h1.trans (ih _ (projects_wellFormed_step s e h))

theorem projects_run_append (s : Projects.State) (events more : List Projects.Event) :
    Projects.run s (events ++ more) = Projects.run (Projects.run s events) more := by
  simp [Projects.run, List.foldl_append]

/-- C8: in projects.js, in every state reached by a sequence of submissions
and settlements, the number of typing indicators in the transcript is the number
of outstanding requests; settling a pending submission, whatever the outcome,
removes its own indicator, which sits in the transcript exactly once, keeps every
other entry in place and appends one entry that is not an indicator; and the
message entries of a state stay, in order, the first message entries of every
later state. -/
theorem indicators_track_requests (projectId : Option String)
    (events : List Projects.Event) :
    Projects.indicators (Projects.run (Projects.init projectId) events) =
      Projects.outstanding (Projects.run (Projects.init projectId) events) ∧
    (∀ k ∈ (Projects.run (Projects.init projectId) events).pending, ∀ o : Outcome,
      ∃ (l1 l2 : List Projects.Node) (e : Projects.Node),
        (Projects.run (Projects.init projectId) events).chatMessages =
          l1 ++ { nid := k, element := Projects.indicatorDiv } :: l2 ∧
        (∀ n ∈ l1 ++ l2, n.nid ≠ k) ∧
        (Projects.step (Projects.run (Projects.init projectId) events)
          (.settle k o)).chatMessages = l1 ++ l2 ++ [e] ∧
        e.element.isTypingIndicator = false ∧
        (Projects.step (Projects.run (Projects.init projectId) events)
          (.settle k o)).pending =
          (Projects.run (Projects.init projectId) events).pending.erase k) ∧
    (∀ more : List Projects.Event,
      Projects.messages (Projects.run (Projects.init projectId) events) <+:
        Projects.messages (Projects.run (Projects.init projectId) (events ++ more))) := by
  have hwf := projects_wellFormed_run (Projects.init projectId) events
    (projects_wellFormed_init projectId)
  refine ⟨?_, ?_, ?_⟩
  · obtain ⟨_, _, hind⟩ := hwf
    rw [Projects.indicators, Projects.outstanding, List.countP_eq_length_filter, hind]
    simp
  · intro k hk o
    obtain ⟨l1, l2, hsplit, hfilter, hall⟩ := projects_indicator_split _ k hwf hk
    obtain ⟨el, hel, hc, _, _⟩ :=
      projects_resume_effect (Projects.run (Projects.init projectId) events) k o
    refine ⟨l1, l2, { nid := (Projects.run (Projects.init projectId) events).created,
                      element := el }, hsplit, hall, ?_, hel, ?_⟩
    · simp only [Projects.step, hk, if_true, hc, hfilter]
    · simp only [Projects.step, hk, if_true]
  · intro more
    rw [projects_run_append]
    exact projects_messages_run _ more hwf

/-- C8 on a run with two overlapping submissions, the second settled first
with a failure: one indicator is left, that of the first submission, and the
entries of the transcript are the two user entries, the remaining indicator
and the error entry. -/
theorem indicators_track_requests_witness :
    (Projects.run (Projects.init none)
      [.input "a", .submit, .input "b", .submit, .settle 3 .rejected]).pending = [1] ∧
    Projects.indicators (Projects.run (Projects.init none)
      [.input "a", .submit, .input "b", .submit, .settle 3 .rejected]) = 1 ∧
    (Projects.run (Projects.init none)
      [.input "a", .submit, .input "b", .submit, .settle 3 .rejected]).chatMessages.map
        (fun n => n.nid) = [0, 1, 2, 4] := by
  have key := indicators_track_requests none
    [.input "a", .submit, .input "b", .submit, .settle 3 .rejected]
  have hp : (Projects.run (Projects.init none)
      [.input "a", .submit, .input "b", .submit, .settle 3 .rejected]).pending = [1] := rfl
  refine ⟨hp, ?_, rfl⟩
  rw [key.1, Projects.outstanding, hp]
  rfl

end JswMain
